import Mathlib

/-
Shallow embedding of the load-balancer simulation (upstream_server.py,
load_balancer.py, user.py, performance_monitor.py, load_balancer_viz.py).

Python floats are modelled as rationals (ℚ).  Wall-clock reads
(`time.time()`) and random draws (`random.random()`, `random.uniform`,
`random.sample`, `random.choice`, `random.randint`) are passed in as explicit
oracle parameters at exactly the program points where the source consumes
them.  Purely presentational state (screen coordinates, colors, pulse
phases, pygame drawing) and the wall-clock response-time statistics
(`response_times`, `avg_response_time` recomputation, `load_history`) are
not part of the dynamics modelled here; fields that other modelled code
reads (`avg_response_time`, `weight`) are kept as data.
-/

namespace LBSim

/-- Health states of an upstream server (`ServerStatus` in upstream_server.py). -/
inductive ServerStatus where
  | healthy
  | overloaded
  | failed
  | degraded
deriving DecidableEq, Repr

/-- One entry of `UpstreamServer.processing_requests`: the in-flight record
appended by `add_connection` (the wall-clock `start_time` field, used only
for response-time statistics, is omitted; `processing_time` is stored in the
source but never read after creation, only `remaining_time` is). -/
structure PRequest where
  cpu_requirement : ℚ
  memory_requirement : ℚ
  remaining_time : ℚ
deriving DecidableEq, Repr

/-- State of `UpstreamServer` (upstream_server.py).  Capacity constants
(`cpu_cores`, `memory_gb`, `base_processing_speed`) are fixed by the server
type in `_set_server_specs`; they are plain fields here. -/
structure Server where
  name : String
  weight : ℕ
  cpu_cores : ℚ
  memory_gb : ℚ
  base_processing_speed : ℚ
  active_connections : ℕ
  total_requests : ℕ
  processing_requests : List PRequest
  current_cpu_usage : ℚ
  current_memory_usage : ℚ
  status : ServerStatus
  failure_probability : ℚ
  recovery_time : ℚ
  avg_response_time : ℚ
deriving DecidableEq, Repr

/-- `UpstreamServer.cpu_utilization`. -/
def cpu_utilization (s : Server) : ℚ :=
  min 100 (s.current_cpu_usage / s.cpu_cores * 100)

/-- `UpstreamServer.memory_utilization`. -/
def memory_utilization (s : Server) : ℚ :=
  min 100 (s.current_memory_usage / s.memory_gb * 100)

/-- `UpstreamServer.can_accept_request`. -/
def can_accept_request (s : Server) (cpu_requirement memory_requirement : ℚ) : Bool :=
  if s.status = ServerStatus.healthy ∨ s.status = ServerStatus.degraded then
    decide (cpu_requirement ≤ s.cpu_cores - s.current_cpu_usage) &&
      decide (memory_requirement ≤ s.memory_gb - s.current_memory_usage)
  else
    false

/-- `UpstreamServer.add_connection`: returns the updated server and the
boolean result of the Python method. -/
def add_connection (s : Server) (cpu_requirement memory_requirement processing_time : ℚ) :
    Server × Bool :=
  if can_accept_request s cpu_requirement memory_requirement then
    ({ s with
        active_connections := s.active_connections + 1
        total_requests := s.total_requests + 1
        current_cpu_usage := s.current_cpu_usage + cpu_requirement
        current_memory_usage := s.current_memory_usage + memory_requirement
        processing_requests := s.processing_requests ++
          [{ cpu_requirement := cpu_requirement
             memory_requirement := memory_requirement
             remaining_time := processing_time * s.base_processing_speed }] },
      true)
  else
    (s, false)

/-- `UpstreamServer.remove_connection`: the method body is `pass`. -/
def remove_connection (s : Server) : Server := s

/-- One step of the completion loop in `UpstreamServer.update`: the
accumulator carries (cpu usage, memory usage, records kept so far).  Every
record's `remaining_time` is decremented by 1/60; a record reaching ≤ 0
releases its resources (clamped at zero) and is dropped. -/
def processStep (acc : ℚ × ℚ × List PRequest) (r : PRequest) : ℚ × ℚ × List PRequest :=
  let r' : PRequest := { r with remaining_time := r.remaining_time - 1/60 }
  if r'.remaining_time ≤ 0 then
    (max 0 (acc.1 - r.cpu_requirement), max 0 (acc.2.1 - r.memory_requirement), acc.2.2)
  else
    (acc.1, acc.2.1, acc.2.2 ++ [r'])

/-- The request-processing phase of `UpstreamServer.update` (decrement, release
completed, delete completed, reset `active_connections`, clamp usages). -/
def processTick (s : Server) : Server :=
  let res := s.processing_requests.foldl processStep
    (s.current_cpu_usage, s.current_memory_usage, [])
  { s with
      current_cpu_usage := max 0 res.1
      current_memory_usage := max 0 res.2.1
      processing_requests := res.2.2
      active_connections := res.2.2.length }

/-- `UpstreamServer._update_status`. -/
def updateStatus (s : Server) : Server :=
  if s.status = ServerStatus.failed then s
  else if 95 < cpu_utilization s ∨ 95 < memory_utilization s then
    { s with status := ServerStatus.overloaded, failure_probability := 1/1000 }
  else if 80 < cpu_utilization s ∨ 80 < memory_utilization s then
    { s with status := ServerStatus.degraded, failure_probability := 1/2000 }
  else
    { s with status := ServerStatus.healthy, failure_probability := 1/10000 }

/-- `UpstreamServer._simulate_failures_and_recovery`; `roll` is the
`random.random()` draw and `recoveryDraw` the `random.uniform(5, 15)` draw
(consumed only when a failure triggers). -/
def simulateFailuresAndRecovery (roll recoveryDraw : ℚ) (s : Server) : Server :=
  if s.status = ServerStatus.failed then
    if 0 < s.recovery_time then
      { s with recovery_time := s.recovery_time - 1/60 }
    else
      { s with
          status := ServerStatus.healthy
          current_cpu_usage := 0
          current_memory_usage := 0
          active_connections := 0
          processing_requests := [] }
  else if roll < s.failure_probability then
    { s with
        status := ServerStatus.failed
        recovery_time := recoveryDraw
        current_cpu_usage := 0
        current_memory_usage := 0
        active_connections := 0
        processing_requests := [] }
  else
    s

/-- `UpstreamServer.update` restricted to the simulation dynamics: process
in-flight requests, re-evaluate health, run failure/recovery.  The omitted
tail of the method only maintains wall-clock response-time statistics,
`load_history` and the drawing pulse. -/
def serverUpdate (roll recoveryDraw : ℚ) (s : Server) : Server :=
  simulateFailuresAndRecovery roll recoveryDraw (updateStatus (processTick s))

/-- The per-server portion of `LoadBalancerVisualization.reset_all_state`
(the cleared deque-based statistics fields are outside the model). -/
def serverReset (s : Server) : Server :=
  { s with
      active_connections := 0
      total_requests := 0
      processing_requests := []
      current_cpu_usage := 0
      current_memory_usage := 0
      status := ServerStatus.healthy
      recovery_time := 0
      avg_response_time := 0 }

/-- The backend invariant of the specification: usage within [0, capacity],
connection counter equal to the number of in-flight records, and a failed
backend holding no usage and no records.  The last conjunct (admitted
records carry non-negative requirements) is the well-formedness needed for
the bounds to be inductive. -/
def ServerInv (s : Server) : Prop :=
  0 ≤ s.current_cpu_usage ∧ s.current_cpu_usage ≤ s.cpu_cores ∧
  0 ≤ s.current_memory_usage ∧ s.current_memory_usage ≤ s.memory_gb ∧
  s.active_connections = s.processing_requests.length ∧
  (s.status = ServerStatus.failed →
    s.current_cpu_usage = 0 ∧ s.current_memory_usage = 0 ∧ s.processing_requests = []) ∧
  (∀ r ∈ s.processing_requests, 0 ≤ r.cpu_requirement ∧ 0 ≤ r.memory_requirement)

instance (s : Server) : Decidable (ServerInv s) := by
  unfold ServerInv; infer_instance

/-- A concrete standard server (specs of `ServerType.STANDARD`) in its
initial state, used for witnesses. -/
def server0 : Server :=
  { name := "Server-1"
    weight := 1
    cpu_cores := 4
    memory_gb := 8
    base_processing_speed := 1
    active_connections := 0
    total_requests := 0
    processing_requests := []
    current_cpu_usage := 0
    current_memory_usage := 0
    status := ServerStatus.healthy
    failure_probability := 1/10000
    recovery_time := 0
    avg_response_time := 0 }

/-- `LoadBalancingAlgorithm` (load_balancer.py). -/
inductive LoadBalancingAlgorithm where
  | round_robin
  | least_connections
  | weighted_round_robin
  | least_response_time
  | resource_based
  | random
  | power_of_two
deriving DecidableEq, Repr

/-- `UpstreamServer.is_overloaded`. -/
def is_overloaded (s : Server) : Bool :=
  decide (s.status = ServerStatus.overloaded) || decide (s.status = ServerStatus.failed)

/-- `LoadBalancer.get_healthy_servers`. -/
def get_healthy_servers (servers : List Server) : List Server :=
  servers.filter (fun s => !is_overloaded s)

/-- `UpstreamServer.load_score`: `none` models the `float("inf")` sentinel
returned for non-healthy servers. -/
def load_score (s : Server) : Option ℚ :=
  if s.status = ServerStatus.healthy then
    let response_score : ℚ :=
      if 0 < s.avg_response_time then min 1 (s.avg_response_time / 10) else 0
    some ((1/2) * (cpu_utilization s / 100) + (2/5) * (memory_utilization s / 100) +
      (1/10) * response_score)
  else
    none

/-- Comparison of load scores with `none` as `+∞`. -/
def loadLt (x y : Option ℚ) : Bool :=
  match x, y with
  | some a, some b => decide (a < b)
  | some _, none => true
  | none, _ => false

/-- Python `min(list, key=...)`: scan keeping the first element whose key is
not strictly beaten by a later one.  `lt x y` means the key of `x` is
strictly smaller than the key of `y`. -/
def minBy (lt : Server → Server → Bool) : Server → List Server → Server
  | best, [] => best
  | best, s :: rest => minBy lt (if lt s best then s else best) rest

/-- The scan loop of `LoadBalancer._round_robin_assignment`: at most one full
cycle over the healthy list, skipping servers that fail `can_accept_request`. -/
def roundRobinLoop (healthy : List Server) (c m : ℚ) : ℕ → ℕ → Option Server × String × ℕ
  | idx, 0 => (none, "round_robin_all_full", idx)
  | idx, fuel + 1 =>
    match healthy[idx % healthy.length]? with
    | none => (none, "round_robin_all_full", idx)
    | some srv =>
      let idx' := (idx + 1) % healthy.length
      if can_accept_request srv c m then (some srv, "round_robin_success", idx')
      else roundRobinLoop healthy c m idx' fuel

/-- `LoadBalancer._round_robin_assignment`; the third component is the new
`round_robin_index`. -/
def round_robin_assignment (servers : List Server) (c m : ℚ) (idx : ℕ) :
    Option Server × String × ℕ :=
  let healthy := get_healthy_servers servers
  if healthy.isEmpty then (none, "no_healthy_servers", idx)
  else roundRobinLoop healthy c m idx healthy.length

/-- `LoadBalancer._least_connections_assignment`. -/
def least_connections_assignment (servers : List Server) (c m : ℚ) :
    Option Server × String :=
  let available := (get_healthy_servers servers).filter (fun s => can_accept_request s c m)
  match available with
  | [] => (none, "no_available_servers")
  | b :: rest =>
    (some (minBy (fun x y => decide (x.active_connections < y.active_connections)) b rest),
      "least_connections_success")

/-- `LoadBalancer._rebuild_weighted_list` (every server carries a `weight`). -/
def rebuild_weighted_list : List Server → List Server
  | [] => []
  | s :: rest => List.replicate s.weight s ++ rebuild_weighted_list rest

/-- `LoadBalancer._weighted_round_robin_assignment`; the stored weighted list
always equals `rebuild_weighted_list` of the current server list (it is
(re)built by `set_servers`, `switch_algorithm` and on-demand when empty).
The third component is the new `weighted_round_robin_current` cursor. -/
def weighted_round_robin_assignment (servers : List Server) (c m : ℚ) (cur : ℕ) :
    Option Server × String × ℕ :=
  let available := (rebuild_weighted_list servers).filter
    (fun s => !is_overloaded s && can_accept_request s c m)
  if available.isEmpty then (none, "no_weighted_available", cur)
  else (available[cur % available.length]?, "weighted_round_robin_success",
    (cur + 1) % available.length)

/-- `LoadBalancer._least_response_time_assignment`. -/
def least_response_time_assignment (servers : List Server) (c m : ℚ) :
    Option Server × String :=
  let available := (get_healthy_servers servers).filter (fun s => can_accept_request s c m)
  match available with
  | [] => (none, "no_available_servers")
  | b :: rest =>
    (some (minBy (fun x y => decide (x.avg_response_time < y.avg_response_time)) b rest),
      "least_response_time_success")

/-- `LoadBalancer._resource_based_assignment`. -/
def resource_based_assignment (servers : List Server) (c m : ℚ) :
    Option Server × String :=
  let available := (get_healthy_servers servers).filter (fun s => can_accept_request s c m)
  match available with
  | [] => (none, "no_available_servers")
  | b :: rest =>
    (some (minBy (fun x y => loadLt (load_score x) (load_score y)) b rest),
      "resource_based_success")

/-- `LoadBalancer._random_assignment`; `pick` is the oracle for
`random.choice` (an arbitrary index into the available list). -/
def random_assignment (servers : List Server) (c m : ℚ) (pick : ℕ) :
    Option Server × String :=
  let available := (get_healthy_servers servers).filter (fun s => can_accept_request s c m)
  if available.isEmpty then (none, "no_available_servers")
  else (available[pick % available.length]?, "random_success")

/-- `LoadBalancer._power_of_two_assignment`; `s1`, `s2` are the oracle for
`random.sample(healthy_servers, 2)` (two distinct members of the admissible
list, consumed only when it has at least two elements). -/
def power_of_two_assignment (servers : List Server) (c m : ℚ) (s1 s2 : Server) :
    Option Server × String :=
  let healthy := (get_healthy_servers servers).filter (fun s => can_accept_request s c m)
  if healthy.isEmpty then (none, "no_available_servers")
  else if healthy.length = 1 then (healthy[0]?, "power_of_two_single")
  else if s1.active_connections ≤ s2.active_connections then
    (some s1, "power_of_two_choice1")
  else
    (some s2, "power_of_two_choice2")

/-- One routing decision as recorded in `LoadBalancer.routing_decisions`
(`timestamp` is wall-clock and omitted). -/
structure Decision where
  method : String
  server_id : Option String
  success : Bool
deriving DecidableEq, Repr

/-- Mutable state of `LoadBalancer` (the wall-clock performance window and
the `request_history` reporting buffer are outside the model). -/
structure LoadBalancer where
  servers : List Server
  algorithm : LoadBalancingAlgorithm
  round_robin_index : ℕ
  weighted_round_robin_current : ℕ
  total_requests_received : ℕ
  total_requests_routed : ℕ
  dropped_requests : ℕ
  routing_decisions : List Decision

/-- Append to the bounded `routing_decisions` deque (maxlen 50). -/
def pushDecision (l : List Decision) (d : Decision) : List Decision :=
  let l' := l ++ [d]
  if 50 < l'.length then l'.drop (l'.length - 50) else l'

/-- Randomness consumed by `LoadBalancer.assign_server`: `pick` feeds
`random.choice`, `(s1, s2)` feeds `random.sample`. -/
structure AssignOracle where
  pick : ℕ
  s1 : Server
  s2 : Server

/-- `LoadBalancer.assign_server` with explicitly supplied resource
requirements: dispatch on the algorithm, record the routing decision, and
update the routed/dropped counters.  The Python return value is the first
component. -/
def assign_server (lb : LoadBalancer) (c m : ℚ) (o : AssignOracle) :
    Option Server × LoadBalancer :=
  let lb0 := { lb with total_requests_received := lb.total_requests_received + 1 }
  let res : Option Server × String × LoadBalancer :=
    match lb.algorithm with
    | LoadBalancingAlgorithm.round_robin =>
      let r := round_robin_assignment lb.servers c m lb.round_robin_index
      (r.1, r.2.1, { lb0 with round_robin_index := r.2.2 })
    | LoadBalancingAlgorithm.least_connections =>
      let r := least_connections_assignment lb.servers c m
      (r.1, r.2, lb0)
    | LoadBalancingAlgorithm.weighted_round_robin =>
      let r := weighted_round_robin_assignment lb.servers c m lb.weighted_round_robin_current
      (r.1, r.2.1, { lb0 with weighted_round_robin_current := r.2.2 })
    | LoadBalancingAlgorithm.least_response_time =>
      let r := least_response_time_assignment lb.servers c m
      (r.1, r.2, lb0)
    | LoadBalancingAlgorithm.resource_based =>
      let r := resource_based_assignment lb.servers c m
      (r.1, r.2, lb0)
    | LoadBalancingAlgorithm.random =>
      let r := random_assignment lb.servers c m o.pick
      (r.1, r.2, lb0)
    | LoadBalancingAlgorithm.power_of_two =>
      let r := power_of_two_assignment lb.servers c m o.s1 o.s2
      (r.1, r.2, lb0)
  let d : Decision := { method := res.2.1, server_id := res.1.map Server.name,
                        success := res.1.isSome }
  let lb2 := { res.2.2 with routing_decisions := pushDecision res.2.2.routing_decisions d }
  match res.1 with
  | some srv => (some srv, { lb2 with total_requests_routed := lb2.total_requests_routed + 1 })
  | none => (none, { lb2 with dropped_requests := lb2.dropped_requests + 1 })

/-- Reason codes paired with `none` results across the seven policies. -/
def failureCodes : List String :=
  ["no_healthy_servers", "round_robin_all_full", "no_available_servers",
   "no_weighted_available"]

/-- Reason codes paired with `some` results across the seven policies. -/
def successCodes : List String :=
  ["round_robin_success", "least_connections_success", "weighted_round_robin_success",
   "least_response_time_success", "resource_based_success", "random_success",
   "power_of_two_single", "power_of_two_choice1", "power_of_two_choice2"]

/-- The most recent routing decision recorded by the balancer. -/
def lastDecision (lb : LoadBalancer) : Option Decision :=
  lb.routing_decisions.getLast?

/-- The (result, reason) pair produced by the policy dispatch inside
`assign_server`. -/
def policyPair (lb : LoadBalancer) (c m : ℚ) (o : AssignOracle) : Option Server × String :=
  match lb.algorithm with
  | LoadBalancingAlgorithm.round_robin =>
    let r := round_robin_assignment lb.servers c m lb.round_robin_index
    (r.1, r.2.1)
  | LoadBalancingAlgorithm.least_connections => least_connections_assignment lb.servers c m
  | LoadBalancingAlgorithm.weighted_round_robin =>
    let r := weighted_round_robin_assignment lb.servers c m lb.weighted_round_robin_current
    (r.1, r.2.1)
  | LoadBalancingAlgorithm.least_response_time =>
    least_response_time_assignment lb.servers c m
  | LoadBalancingAlgorithm.resource_based => resource_based_assignment lb.servers c m
  | LoadBalancingAlgorithm.random => random_assignment lb.servers c m o.pick
  | LoadBalancingAlgorithm.power_of_two =>
    power_of_two_assignment lb.servers c m o.s1 o.s2

/-- The `LoadBalancer` constructor state followed by `set_servers`:
all counters zero, empty decision history, cursors at zero. -/
def mkLoadBalancer (alg : LoadBalancingAlgorithm) (servers : List Server) : LoadBalancer :=
  { servers := servers
    algorithm := alg
    round_robin_index := 0
    weighted_round_robin_current := 0
    total_requests_received := 0
    total_requests_routed := 0
    dropped_requests := 0
    routing_decisions := [] }

/-- `UserType` (user.py). -/
inductive UserType where
  | light
  | standard
  | heavy
  | burst
  | naughty
deriving DecidableEq, Repr

/-- `AttackType` (user.py). -/
inductive AttackType where
  | dos
  | resource_exhaustion
  | slowloris
  | amplification
  | priority_abuse
deriving DecidableEq, Repr

/-- `RequestPriority` (user.py). -/
inductive RequestPriority where
  | low
  | normal
  | high
  | critical
deriving DecidableEq, Repr

/-- `RequestPriority.value`. -/
def RequestPriority.value : RequestPriority → ℕ
  | RequestPriority.low => 1
  | RequestPriority.normal => 2
  | RequestPriority.high => 3
  | RequestPriority.critical => 4

/-- The string-valued `User.state` tags. -/
inductive UState where
  | moving_to_lb
  | at_lb
  | moving_to_server
  | processing
  | retry
  | timeout_exit
  | done
deriving DecidableEq, Repr

/-- State of `User` (user.py).  Screen coordinates, speed and colors are
rendering-only and omitted; movement-arrival (a geometric test in
`_move_to_target`) is abstracted by the `arrived` oracle of `Env`.
`max_retries` is the retry budget the constructor derives from the priority
(3 if priority ≥ High else 1), kept as a field because clones may later
change priority without recomputing it. -/
structure User where
  user_type : UserType
  attack_type : Option AttackType
  attack_intensity : ℚ
  spawn_count : ℕ
  max_spawn_count : ℕ
  attack_duration : ℚ
  attack_start_time : ℚ
  is_attacking : Bool
  stealth_mode : Bool
  state : UState
  failed : Bool
  timeout_exit : Bool
  cpu_requirement : ℚ
  memory_requirement : ℚ
  priority : RequestPriority
  processing_time : ℚ
  waiting_time : ℚ
  max_waiting_time : ℚ
  processing_elapsed : ℚ
  retry_count : ℕ
  max_retries : ℕ
  retry_probability : ℚ
  completion_time : ℚ
  arrival_time : ℚ
  load_balancer_reached_time : ℚ
  processing_start_time : ℚ
  target_server : Option Server
  request_id : ℕ
  is_simulation_user : Bool
  simulation_id : Option ℚ
  unique_id : Option ℕ
deriving DecidableEq, Repr

/-- The retry budget derived from the priority in `User.__init__`:
`3 if self.priority.value >= 3 else 1`. -/
def max_retries_of (p : RequestPriority) : ℕ :=
  if 3 ≤ p.value then 3 else 1

/-- Randomness and environment reads consumed by one `User.update` call:
`now` is `time.time()`; `assign` the result of `assign_server`; `retryRoll`
the `random.random()` in `_handle_server_rejection`; `attackRoll` the
per-tick spawn roll; `spawnRound` the `randint(2, 4)` of Amplification;
`slowRoll` the Slowloris self-extension roll; `arrived` whether
`_move_to_target` reaches its target this tick; `cloneBase k` the `User`
produced by the constructor call inside the k-th `_create_attack_clone`
this tick, and the `clone*F k` the corresponding `random.uniform` factors. -/
structure Env where
  now : ℚ
  assign : Option Server
  retryRoll : ℚ
  attackRoll : ℚ
  spawnRound : ℕ
  slowRoll : ℚ
  arrived : Bool
  cloneBase : ℕ → User
  cloneIntensityF : ℕ → ℚ
  cloneCpuF : ℕ → ℚ
  cloneMemF : ℕ → ℚ
  cloneTimeF : ℕ → ℚ

/-- `User._create_attack_clone`: override the constructor output with the
parent's attack type, stealth flag and a scaled intensity, and — for
non-stealth parents — scaled resource demands and processing time. -/
def create_attack_clone (u : User) (e : Env) (k : ℕ) : User :=
  let base := e.cloneBase k
  let clone := { base with
    attack_type := u.attack_type
    stealth_mode := u.stealth_mode
    attack_intensity := u.attack_intensity * e.cloneIntensityF k }
  if u.stealth_mode then clone
  else { clone with
    cpu_requirement := u.cpu_requirement * e.cloneCpuF k
    memory_requirement := u.memory_requirement * e.cloneMemF k
    processing_time := u.processing_time * e.cloneTimeF k }

/-- The Amplification spawn loop (`for _ in range(spawn_this_round)`):
each pass spawns a clone and bumps `spawn_count` while the quota allows. -/
def ampLoop (e : Env) : User → ℕ → ℕ → User × List User
  | u, _, 0 => (u, [])
  | u, k, n + 1 =>
    if u.spawn_count < u.max_spawn_count then
      let c := create_attack_clone u e k
      let r := ampLoop e { u with spawn_count := u.spawn_count + 1 } (k + 1) n
      (r.1, c :: r.2)
    else
      ampLoop e u k n

/-- `User._execute_attack_behavior`: mark the attack started, end it once the
duration is exceeded (unless Amplification still holds spawn quota), then
spawn clones per attack subtype. -/
def execute_attack_behavior (e : Env) (u0 : User) : User × List User :=
  let u := if u0.is_attacking then u0
           else { u0 with is_attacking := true, attack_start_time := e.now }
  let attack_elapsed := e.now - u.attack_start_time
  if u.attack_duration ≤ attack_elapsed ∧
      ¬(u.attack_type = some AttackType.amplification ∧
        u.spawn_count < u.max_spawn_count) then
    ({ u with state := UState.done }, [])
  else
    match u.attack_type with
    | some AttackType.dos =>
      if e.attackRoll < u.attack_intensity * (3/10) then
        (u, [create_attack_clone u e 0])
      else (u, [])
    | some AttackType.amplification =>
      if u.spawn_count < u.max_spawn_count ∧ e.attackRoll < u.attack_intensity * (1/10) then
        ampLoop e u 0 e.spawnRound
      else (u, [])
    | some AttackType.slowloris => (u, [])
    | some AttackType.resource_exhaustion =>
      if e.attackRoll < u.attack_intensity * (1/20) then
        let c := create_attack_clone u e 0
        (u, [{ c with
          cpu_requirement := c.cpu_requirement * (3/2)
          memory_requirement := c.memory_requirement * (3/2) }])
      else (u, [])
    | some AttackType.priority_abuse =>
      if e.attackRoll < u.attack_intensity * (1/5) then
        (u, [{ (create_attack_clone u e 0) with priority := RequestPriority.critical }])
      else (u, [])
    | none => (u, [])

/-- `User._handle_timeout`. -/
def handle_timeout (now : ℚ) (u : User) : User :=
  if u.failed then u
  else { u with
    failed := true
    timeout_exit := true
    state := UState.timeout_exit
    completion_time := now }

/-- `User._handle_server_rejection`; `roll` is the `random.random()` draw. -/
def handle_server_rejection (roll now : ℚ) (u : User) : User :=
  let v := { u with retry_count := u.retry_count + 1 }
  if v.retry_count < v.max_retries ∧ roll < v.retry_probability then
    { v with state := UState.retry, waiting_time := 0 }
  else
    handle_timeout now v

/-- Truthiness classes of the value `User.update` returns: a non-empty list
of freshly spawned attack clones, `True`, or `False`. -/
inductive UpdateResult where
  | spawned (clones : List User)
  | alive
  | finished
deriving DecidableEq, Repr

/-- The state-machine part of `User.update` (everything after the
naughty-user attack hook).  The `remove_connection` call on completion of
processing is the no-op of C10 and leaves no trace here; movement states
transition when the `arrived` oracle fires. -/
def stateStep (e : Env) (u : User) : User × UpdateResult :=
  match u.state with
  | UState.moving_to_lb =>
    (if e.arrived then { u with state := UState.at_lb } else u, UpdateResult.alive)
  | UState.at_lb =>
    let u := if u.load_balancer_reached_time = 0
             then { u with load_balancer_reached_time := e.now } else u
    match e.assign with
    | some srv =>
      let u := { u with target_server := some srv }
      if (add_connection srv u.cpu_requirement u.memory_requirement u.processing_time).2 then
        ({ u with state := UState.moving_to_server, processing_start_time := e.now },
          UpdateResult.alive)
      else
        (handle_server_rejection e.retryRoll e.now u, UpdateResult.alive)
    | none =>
      let u := { u with target_server := none, waiting_time := u.waiting_time + 1/60 }
      if u.max_waiting_time ≤ u.waiting_time then
        (handle_timeout e.now u, UpdateResult.alive)
      else (u, UpdateResult.alive)
  | UState.moving_to_server =>
    (if e.arrived then { u with state := UState.processing } else u, UpdateResult.alive)
  | UState.processing =>
    let u := { u with processing_elapsed := u.processing_elapsed + 1/60 }
    let u := if u.user_type = UserType.naughty ∧
                u.attack_type = some AttackType.slowloris ∧ e.slowRoll < 1/10
             then { u with processing_time := u.processing_time + 1 } else u
    if u.processing_time ≤ u.processing_elapsed then
      ({ u with completion_time := e.now, state := UState.done }, UpdateResult.alive)
    else (u, UpdateResult.alive)
  | UState.retry =>
    let u := { u with waiting_time := u.waiting_time + 1/60 }
    let delay : ℚ := if u.user_type = UserType.naughty then 1/10 else 1
    if delay ≤ u.waiting_time then
      ({ u with waiting_time := 0, state := UState.at_lb }, UpdateResult.alive)
    else (u, UpdateResult.alive)
  | UState.timeout_exit =>
    (if e.arrived then { u with state := UState.done } else u, UpdateResult.alive)
  | UState.done => (u, UpdateResult.finished)

/-- `User.update`: a naughty user at the balancer first runs the attack
hook; a non-empty clone list is returned immediately (truthy), otherwise the
ordinary state machine continues on the possibly-mutated user. -/
def userUpdate (e : Env) (u : User) : User × UpdateResult :=
  if u.user_type = UserType.naughty ∧ u.state = UState.at_lb then
    let r := execute_attack_behavior e u
    if r.2 ≠ [] then (r.1, UpdateResult.spawned r.2)
    else stateStep e r.1
  else
    stateStep e u

/-- The per-user pass of `LoadBalancerVisualization.update`: users whose
`update()` returned a truthy value stay in the live set, the rest are moved
to the completed batch.  The clone list inside a truthy return value is
used only for its truthiness. -/
def vizUpdateUsersGo (envAt : ℕ → Env) : ℕ → List User → List User × List User
  | _, [] => ([], [])
  | i, u :: rest =>
    let r := userUpdate (envAt i) u
    let rec_result := vizUpdateUsersGo envAt (i + 1) rest
    match r.2 with
    | UpdateResult.finished => (rec_result.1, r.1 :: rec_result.2)
    | _ => (r.1 :: rec_result.1, rec_result.2)

/-- The full pass over `self.users`: returns (remaining live set, completed
batch); the driver then assigns the live set to `self.users`. -/
def vizUpdateUsers (envAt : ℕ → Env) (us : List User) : List User × List User :=
  vizUpdateUsersGo envAt 0 us

/-- A concrete standard user freshly at the balancer, used for concrete
inputs. -/
def user0 : User :=
  { user_type := UserType.standard
    attack_type := none
    attack_intensity := 0
    spawn_count := 0
    max_spawn_count := 0
    attack_duration := 0
    attack_start_time := 0
    is_attacking := false
    stealth_mode := false
    state := UState.at_lb
    failed := false
    timeout_exit := false
    cpu_requirement := 1
    memory_requirement := 1
    priority := RequestPriority.normal
    processing_time := 2
    waiting_time := 0
    max_waiting_time := 5
    processing_elapsed := 0
    retry_count := 0
    max_retries := 1
    retry_probability := 1/2
    completion_time := 0
    arrival_time := 0
    load_balancer_reached_time := 1
    processing_start_time := 0
    target_server := none
    request_id := 10000
    is_simulation_user := false
    simulation_id := none
    unique_id := none }

/-- A concrete Flood (DOS) attacker mid-attack at the balancer. -/
def user3 : User :=
  { user0 with
    user_type := UserType.naughty
    attack_type := some AttackType.dos
    attack_intensity := 1
    attack_duration := 10
    attack_start_time := 0
    is_attacking := true
    max_waiting_time := 1
    retry_probability := 19/20 }

/-- A concrete environment for one tick of `user3`: the spawn roll fires. -/
def env3 : Env :=
  { now := 1
    assign := none
    retryRoll := 1
    attackRoll := 0
    spawnRound := 2
    slowRoll := 1
    arrived := false
    cloneBase := fun _ => { user0 with user_type := UserType.naughty, request_id := 20000 }
    cloneIntensityF := fun _ => 1
    cloneCpuF := fun _ => 1
    cloneMemF := fun _ => 1
    cloneTimeF := fun _ => 1 }

/-- The clone `user3` produces under `env3`. -/
def clone3 : User :=
  { user0 with
    user_type := UserType.naughty
    request_id := 20000
    attack_type := some AttackType.dos
    attack_intensity := 1 }

/-- An environment whose router returns no backend this tick. -/
def env4 : Env :=
  { env3 with assign := none }

/-- One failed admission attempt as the request state machine experiences
it: `_handle_server_rejection` runs whenever the request is back at the
router (the `Retry` state deterministically returns to `AtRouter` after its
fixed back-off delay); once the request has left the AtRouter/Retry loop the
handler is never invoked again. -/
def rejectionStep (now roll : ℚ) (v : User) : User :=
  if v.state = UState.at_lb ∨ v.state = UState.retry then
    handle_server_rejection roll now v
  else v

/-- A run of consecutive failed admission attempts with the given retry
rolls. -/
def rejectionRun (now : ℚ) (rolls : List ℚ) (u : User) : User :=
  rolls.foldl (fun v roll => rejectionStep now roll v) u

/-- One value of `metrics["user_type_stats"]` in performance_monitor.py. -/
structure TypeStats where
  count : ℕ
  successes : ℕ
  total_response_time : ℚ
deriving DecidableEq, Repr

/-- State of `PerformanceMonitor`: the response-time deque and the per-type
statistics dictionary (as an association list in insertion order; the
wall-clock-only fields are omitted). -/
structure Monitor where
  response_times : List ℚ
  user_type_stats : List (UserType × TypeStats)
deriving DecidableEq, Repr

/-- `PerformanceMonitor.__init__`. -/
def monitorInit : Monitor :=
  { response_times := [], user_type_stats := [] }

/-- `User.get_response_time`. -/
def get_response_time (now : ℚ) (u : User) : ℚ :=
  if 0 < u.completion_time then u.completion_time - u.arrival_time
  else now - u.arrival_time

/-- Appending to a `deque(maxlen=n)`. -/
def appendBounded (l : List ℚ) (x : ℚ) (n : ℕ) : List ℚ :=
  let l' := l ++ [x]
  if n < l'.length then l'.drop (l'.length - n) else l'

/-- `PerformanceMonitor.record_user_completion`: append the response time,
create the zeroed per-type entry on first sight of the type, then add one
to the count, the success tally (if not failed) and the accumulated
response time.  Note: no per-request identity guard of any kind. -/
def record_user_completion (now : ℚ) (u : User) (mon : Monitor) : Monitor :=
  let rt := get_response_time now u
  let stats0 :=
    if (mon.user_type_stats.find? (fun p => decide (p.1 = u.user_type))).isSome then
      mon.user_type_stats
    else
      mon.user_type_stats ++
        [(u.user_type, { count := 0, successes := 0, total_response_time := 0 })]
  let stats1 := stats0.map (fun p =>
    if p.1 = u.user_type then
      (p.1, { count := p.2.count + 1,
              successes := p.2.successes + (if u.failed then 0 else 1),
              total_response_time := p.2.total_response_time + rt })
    else p)
  { response_times := appendBounded mon.response_times rt 10000
    user_type_stats := stats1 }

/-- The recorded per-type request count (0 when the type was never seen). -/
def statCount (mon : Monitor) (t : UserType) : ℕ :=
  ((mon.user_type_stats.find? (fun p => decide (p.1 = t))).map
    (fun p => p.2.count)).getD 0

/-- The completion-counting state of `LoadBalancerVisualization` (the two
identity sets, the simulation-level and lifetime success/failure tallies). -/
structure VizCounts where
  counted_simulation_users : List (Option ℕ)
  counted_overall_users : List (Option ℕ)
  simulation_start_time : ℚ
  simulation_success_users : ℕ
  simulation_failed_users : ℕ
  successful_users : ℕ
  timeout_users : ℕ
deriving DecidableEq, Repr

/-- `LoadBalancerVisualization._count_simulation_completion`. -/
def count_simulation_completion (u : User) (is_success : Bool) (st : VizCounts) :
    VizCounts × Bool :=
  if u.is_simulation_user = true ∧ u.simulation_id = some st.simulation_start_time ∧
      u.unique_id ∉ st.counted_simulation_users then
    ({ st with
        counted_simulation_users := st.counted_simulation_users ++ [u.unique_id]
        simulation_success_users :=
          if is_success then st.simulation_success_users + 1
          else st.simulation_success_users
        simulation_failed_users :=
          if is_success then st.simulation_failed_users
          else st.simulation_failed_users + 1 },
      true)
  else (st, false)

/-- `LoadBalancerVisualization._count_overall_completion`. -/
def count_overall_completion (u : User) (is_success : Bool) (st : VizCounts) :
    VizCounts × Bool :=
  if u.unique_id ∉ st.counted_overall_users then
    ({ st with
        counted_overall_users := st.counted_overall_users ++ [u.unique_id]
        successful_users :=
          if is_success then st.successful_users + 1 else st.successful_users
        timeout_users :=
          if is_success then st.timeout_users else st.timeout_users + 1 },
      true)
  else (st, false)

lemma can_accept_request_eq_true_iff (s : Server) (c m : ℚ) :
    can_accept_request s c m = true ↔
      (s.status = ServerStatus.healthy ∨ s.status = ServerStatus.degraded) ∧
        c ≤ s.cpu_cores - s.current_cpu_usage ∧ m ≤ s.memory_gb - s.current_memory_usage := by
  unfold can_accept_request
  by_cases h : s.status = ServerStatus.healthy ∨ s.status = ServerStatus.degraded <;>
    simp [h]

/-- C1: `can_accept_request` is true exactly when the state is Healthy or
Degraded and both remaining CPU and remaining memory cover the request;
`add_connection` returns false and leaves the server unchanged when
`can_accept_request` is false, and otherwise adds the requirements to the
current usage, appends an in-flight record whose remaining time is the
processing time times the speed multiplier, and increments the lifetime
request counter (and the active-connection counter). -/
theorem admission_spec (s : Server) (c m t : ℚ) :
    (can_accept_request s c m = true ↔
      (s.status = ServerStatus.healthy ∨ s.status = ServerStatus.degraded) ∧
        c ≤ s.cpu_cores - s.current_cpu_usage ∧
        m ≤ s.memory_gb - s.current_memory_usage) ∧
    (can_accept_request s c m = false → add_connection s c m t = (s, false)) ∧
    (can_accept_request s c m = true →
      (add_connection s c m t).2 = true ∧
      (add_connection s c m t).1.current_cpu_usage = s.current_cpu_usage + c ∧
      (add_connection s c m t).1.current_memory_usage = s.current_memory_usage + m ∧
      (add_connection s c m t).1.processing_requests = s.processing_requests ++
        [{ cpu_requirement := c, memory_requirement := m,
           remaining_time := t * s.base_processing_speed }] ∧
      (add_connection s c m t).1.total_requests = s.total_requests + 1 ∧
      (add_connection s c m t).1.active_connections = s.active_connections + 1) := by
  refine ⟨can_accept_request_eq_true_iff s c m, ?_, ?_⟩
  · intro h
    simp [add_connection, h]
  · intro h
    simp [add_connection, h]

/-- Witness for C1 at a concrete healthy server with spare capacity. -/
theorem admission_spec_witness :
    (add_connection server0 1 1 2).2 = true ∧
    (add_connection server0 1 1 2).1.total_requests = server0.total_requests + 1 := by
  have h := (admission_spec server0 1 1 2).2.2
    (by norm_num [can_accept_request, server0])
  exact ⟨h.1, h.2.2.2.2.1⟩

/-- C8: health re-evaluation is skipped while Failed; otherwise utilization
above 95% yields Overloaded with failure probability 0.001, above 80%
yields Degraded with 0.0005, and otherwise Healthy with 0.0001. -/
theorem update_status_spec (s : Server) :
    (s.status = ServerStatus.failed → updateStatus s = s) ∧
    (s.status ≠ ServerStatus.failed →
      ((95 < cpu_utilization s ∨ 95 < memory_utilization s) →
        (updateStatus s).status = ServerStatus.overloaded ∧
        (updateStatus s).failure_probability = 1/1000) ∧
      (¬(95 < cpu_utilization s ∨ 95 < memory_utilization s) →
        (80 < cpu_utilization s ∨ 80 < memory_utilization s) →
        (updateStatus s).status = ServerStatus.degraded ∧
        (updateStatus s).failure_probability = 1/2000) ∧
      (¬(95 < cpu_utilization s ∨ 95 < memory_utilization s) →
        ¬(80 < cpu_utilization s ∨ 80 < memory_utilization s) →
        (updateStatus s).status = ServerStatus.healthy ∧
        (updateStatus s).failure_probability = 1/10000)) := by
  constructor
  · intro h
    simp [updateStatus, h]
  · intro h
    refine ⟨fun h95 => ?_, fun h95 h80 => ?_, fun h95 h80 => ?_⟩
    · simp [updateStatus, h, h95]
    · simp [updateStatus, h, h95, h80]
    · simp [updateStatus, h, h95, h80]

/-- Witness for C8 at a concrete overloaded-utilization server. -/
theorem update_status_spec_witness :
    (updateStatus { server0 with current_cpu_usage := 39/10 }).status =
      ServerStatus.overloaded := by
  have h := ((update_status_spec { server0 with current_cpu_usage := 39/10 }).2
    (by simp [server0])).1
    (by norm_num [cpu_utilization, memory_utilization, server0, min_def])
  exact h.1

lemma processStep_eq (acc : ℚ × ℚ × List PRequest) (r : PRequest) :
    processStep acc r =
      if r.remaining_time - 1/60 ≤ 0 then
        (max 0 (acc.1 - r.cpu_requirement), max 0 (acc.2.1 - r.memory_requirement), acc.2.2)
      else
        (acc.1, acc.2.1, acc.2.2 ++ [{ r with remaining_time := r.remaining_time - 1/60 }]) :=
  rfl

lemma foldl_processStep_bounds (l : List PRequest) :
    ∀ (cu mu : ℚ) (acc : List PRequest),
      0 ≤ cu → 0 ≤ mu →
      (∀ r ∈ l, 0 ≤ r.cpu_requirement ∧ 0 ≤ r.memory_requirement) →
      (∀ r ∈ acc, 0 ≤ r.cpu_requirement ∧ 0 ≤ r.memory_requirement) →
      0 ≤ (l.foldl processStep (cu, mu, acc)).1 ∧
      (l.foldl processStep (cu, mu, acc)).1 ≤ cu ∧
      0 ≤ (l.foldl processStep (cu, mu, acc)).2.1 ∧
      (l.foldl processStep (cu, mu, acc)).2.1 ≤ mu ∧
      (∀ r ∈ (l.foldl processStep (cu, mu, acc)).2.2,
        0 ≤ r.cpu_requirement ∧ 0 ≤ r.memory_requirement) := by
  induction l with
  | nil =>
    intro cu mu acc hcu hmu _ hacc
    exact ⟨hcu, le_refl _, hmu, le_refl _, hacc⟩
  | cons r rest ih =>
    intro cu mu acc hcu hmu hl hacc
    have hr := hl r (List.mem_cons_self r rest)
    have hrest : ∀ x ∈ rest, 0 ≤ x.cpu_requirement ∧ 0 ≤ x.memory_requirement :=
      fun x hx => hl x (List.mem_cons_of_mem r hx)
    rw [List.foldl_cons, processStep_eq]
    by_cases hcond : r.remaining_time - 1/60 ≤ 0
    · rw [if_pos hcond]
      have h1 : (0:ℚ) ≤ max 0 (cu - r.cpu_requirement) := le_max_left _ _
      have h2 : max 0 (cu - r.cpu_requirement) ≤ cu := max_le hcu (sub_le_self cu hr.1)
      have h3 : (0:ℚ) ≤ max 0 (mu - r.memory_requirement) := le_max_left _ _
      have h4 : max 0 (mu - r.memory_requirement) ≤ mu := max_le hmu (sub_le_self mu hr.2)
      obtain ⟨a, b, c, d, e⟩ := ih _ _ acc h1 h3 hrest hacc
      exact ⟨a, le_trans b h2, c, le_trans d h4, e⟩
    · rw [if_neg hcond]
      have hacc' : ∀ x ∈ acc ++ [{ r with remaining_time := r.remaining_time - 1/60 }],
          0 ≤ x.cpu_requirement ∧ 0 ≤ x.memory_requirement := by
        intro x hx
        rcases List.mem_append.mp hx with hx | hx
        · exact hacc x hx
        · rcases List.mem_singleton.mp hx with rfl
          exact hr
      exact ih cu mu _ hcu hmu hrest hacc'

lemma processTick_inv (s : Server) (hinv : ServerInv s) : ServerInv (processTick s) := by
  obtain ⟨h1, h2, h3, h4, h5, h6, h7⟩ := hinv
  have hb := foldl_processStep_bounds s.processing_requests s.current_cpu_usage
    s.current_memory_usage [] h1 h3 h7 (by intro r hr; cases hr)
  have hcores : (0:ℚ) ≤ s.cpu_cores := le_trans h1 h2
  have hmem : (0:ℚ) ≤ s.memory_gb := le_trans h3 h4
  refine ⟨le_max_left _ _, max_le hcores (le_trans hb.2.1 h2),
    le_max_left _ _, max_le hmem (le_trans hb.2.2.2.1 h4), rfl, ?_, hb.2.2.2.2⟩
  intro hf
  obtain ⟨hzc, hzm, hzr⟩ := h6 hf
  simp only [processTick, hzc, hzm, hzr, List.foldl_nil]
  norm_num

lemma updateStatus_fields (s : Server) :
    (updateStatus s).current_cpu_usage = s.current_cpu_usage ∧
    (updateStatus s).current_memory_usage = s.current_memory_usage ∧
    (updateStatus s).cpu_cores = s.cpu_cores ∧
    (updateStatus s).memory_gb = s.memory_gb ∧
    (updateStatus s).processing_requests = s.processing_requests ∧
    (updateStatus s).active_connections = s.active_connections ∧
    ((updateStatus s).status = ServerStatus.failed → s.status = ServerStatus.failed) := by
  unfold updateStatus
  split
  · simp_all
  · split
    · simp
    · split <;> simp

lemma updateStatus_inv (s : Server) (hinv : ServerInv s) : ServerInv (updateStatus s) := by
  obtain ⟨f1, f2, f3, f4, f5, f6, f7⟩ := updateStatus_fields s
  obtain ⟨h1, h2, h3, h4, h5, h6, h7⟩ := hinv
  refine ⟨f1 ▸ h1, ?_, f2 ▸ h3, ?_, ?_, ?_, f5 ▸ h7⟩
  · rw [f1, f3]; exact h2
  · rw [f2, f4]; exact h4
  · rw [f5, f6]; exact h5
  · intro hf
    obtain ⟨hzc, hzm, hzr⟩ := h6 (f7 hf)
    exact ⟨f1 ▸ hzc, f2 ▸ hzm, f5 ▸ hzr⟩

lemma simulate_inv (roll recoveryDraw : ℚ) (s : Server) (hinv : ServerInv s) :
    ServerInv (simulateFailuresAndRecovery roll recoveryDraw s) := by
  obtain ⟨h1, h2, h3, h4, h5, h6, h7⟩ := hinv
  have hcores : (0:ℚ) ≤ s.cpu_cores := le_trans h1 h2
  have hmem : (0:ℚ) ≤ s.memory_gb := le_trans h3 h4
  unfold simulateFailuresAndRecovery
  split
  · rename_i hf
    split
    · exact ⟨h1, h2, h3, h4, h5, fun _ => h6 hf, h7⟩
    · exact ⟨le_refl _, hcores, le_refl _, hmem, by simp, by simp, by simp⟩
  · split
    · exact ⟨le_refl _, hcores, le_refl _, hmem, by simp, fun _ => ⟨rfl, rfl, rfl⟩, by simp⟩
    · exact ⟨h1, h2, h3, h4, h5, h6, h7⟩

/-- C2: the backend invariant (usage within bounds, connection counter equal
to the number of in-flight records, failed implies empty) is preserved by
admission, by the per-tick update (processing, health transition, failure
and recovery), by `remove_connection`, and by the inter-simulation reset,
for non-negative request requirements. -/
theorem server_state_invariant (s : Server) (c m t roll recoveryDraw : ℚ)
    (hc : 0 ≤ c) (hm : 0 ≤ m) (hinv : ServerInv s) :
    ServerInv (add_connection s c m t).1 ∧
    ServerInv (serverUpdate roll recoveryDraw s) ∧
    ServerInv (remove_connection s) ∧
    ServerInv (serverReset s) := by
  obtain ⟨h1, h2, h3, h4, h5, h6, h7⟩ := hinv
  have hcores : (0:ℚ) ≤ s.cpu_cores := le_trans h1 h2
  have hmem : (0:ℚ) ≤ s.memory_gb := le_trans h3 h4
  refine ⟨?_, ?_, ⟨h1, h2, h3, h4, h5, h6, h7⟩, ?_⟩
  · by_cases hacc : can_accept_request s c m = true
    · obtain ⟨hst, hcu, hmu⟩ := (can_accept_request_eq_true_iff s c m).mp hacc
      rw [show add_connection s c m t = ({ s with
          active_connections := s.active_connections + 1
          total_requests := s.total_requests + 1
          current_cpu_usage := s.current_cpu_usage + c
          current_memory_usage := s.current_memory_usage + m
          processing_requests := s.processing_requests ++
            [{ cpu_requirement := c, memory_requirement := m,
               remaining_time := t * s.base_processing_speed }] }, true) by
        simp [add_connection, hacc]]
      refine ⟨add_nonneg h1 hc, ?_, add_nonneg h3 hm, ?_, ?_, ?_, ?_⟩
      · have := add_le_add_left hcu s.current_cpu_usage
        simpa using this
      · have := add_le_add_left hmu s.current_memory_usage
        simpa using this
      · simp [h5]
      · intro hf
        rcases hst with hst | hst <;> simp [hst] at hf
      · intro r hr
        rcases List.mem_append.mp hr with hr | hr
        · exact h7 r hr
        · rcases List.mem_singleton.mp hr with rfl
          exact ⟨hc, hm⟩
    · rw [show add_connection s c m t = (s, false) by
        simp [add_connection, hacc]]
      exact ⟨h1, h2, h3, h4, h5, h6, h7⟩
  · exact simulate_inv roll recoveryDraw _
      (updateStatus_inv _ (processTick_inv s ⟨h1, h2, h3, h4, h5, h6, h7⟩))
  · exact ⟨le_refl _, hcores, le_refl _, hmem, by simp [serverReset],
      fun _ => ⟨rfl, rfl, rfl⟩, by simp [serverReset]⟩

/-- Witness for C2 at the initial standard server. -/
theorem server_state_invariant_witness :
    ServerInv server0 ∧ ServerInv (add_connection server0 1 1 2).1 ∧
    ServerInv (serverUpdate 1 10 server0) := by
  have h0 : ServerInv server0 := by
    refine ⟨by norm_num [server0], by norm_num [server0], by norm_num [server0],
      by norm_num [server0], by simp [server0], ?_, by simp [server0]⟩
    intro hf
    simp [server0] at hf
  have h := server_state_invariant server0 1 1 2 1 10 (by norm_num) (by norm_num) h0
  exact ⟨h0, h.1, h.2.1⟩

lemma processStep_no_completion (l : List PRequest) (cu mu : ℚ) (acc : List PRequest)
    (h : ∀ r ∈ l, ¬(r.remaining_time - 1/60 ≤ 0)) :
    l.foldl processStep (cu, mu, acc) =
      (cu, mu, acc ++ l.map (fun r => { r with remaining_time := r.remaining_time - 1/60 })) := by
  induction l generalizing acc with
  | nil => simp
  | cons r rest ih =>
    have hr : ¬(r.remaining_time - 1/60 ≤ 0) := h r (List.mem_cons_self r rest)
    have hrest : ∀ x ∈ rest, ¬(x.remaining_time - 1/60 ≤ 0) :=
      fun x hx => h x (List.mem_cons_of_mem r hx)
    simp only [List.foldl_cons, List.map_cons]
    rw [show processStep (cu, mu, acc) r =
        (cu, mu, acc ++ [{ r with remaining_time := r.remaining_time - 1/60 }]) by
      simp only [processStep]
      rw [if_neg hr]]
    rw [ih _ hrest, List.append_assoc]
    rfl

/-- C10: `remove_connection` is a no-op for the whole server state, and the
tick-phase of `update` releases nothing while no in-flight record's
decremented remaining time has reached ≤ 0: usage is unchanged and every
record is kept (merely decremented).  Resources are thus released only by
the server's own tick upon a record expiring. -/
theorem remove_connection_frame (s : Server) :
    remove_connection s = s ∧
    (0 ≤ s.current_cpu_usage → 0 ≤ s.current_memory_usage →
      (∀ r ∈ s.processing_requests, ¬(r.remaining_time - 1/60 ≤ 0)) →
      (processTick s).current_cpu_usage = s.current_cpu_usage ∧
      (processTick s).current_memory_usage = s.current_memory_usage ∧
      (processTick s).processing_requests = s.processing_requests.map
        (fun r => { r with remaining_time := r.remaining_time - 1/60 }) ∧
      (processTick s).total_requests = s.total_requests ∧
      (processTick s).status = s.status) := by
  refine ⟨rfl, fun hc hm h => ?_⟩
  unfold processTick
  rw [processStep_no_completion _ _ _ _ h]
  simp [max_eq_right hc, max_eq_right hm]

lemma pushDecision_getLast (l : List Decision) (d : Decision) :
    (pushDecision l d).getLast? = some d := by
  simp only [pushDecision]
  split
  · rename_i h
    rw [List.getLast?_drop, if_neg (by omega), List.getLast?_concat]
  · exact List.getLast?_concat _

lemma mem_rebuild_weighted_list {servers : List Server} {s : Server}
    (h : s ∈ rebuild_weighted_list servers) : s ∈ servers := by
  induction servers with
  | nil => cases h
  | cons a rest ih =>
    rcases List.mem_append.mp h with h | h
    · rcases List.eq_of_mem_replicate h with rfl
      exact List.mem_cons_self _ _
    · exact List.mem_cons_of_mem a (ih h)

lemma admissible_filter_nil {servers : List Server} {c m : ℚ}
    (h : ∀ s ∈ servers, is_overloaded s = true ∨ can_accept_request s c m = false) :
    (get_healthy_servers servers).filter (fun s => can_accept_request s c m) = [] := by
  rw [List.filter_eq_nil_iff]
  intro s hs
  rcases List.mem_filter.mp hs with ⟨hmem, hover⟩
  rcases h s hmem with hov | hacc
  · simp [hov] at hover
  · simp [hacc]

lemma roundRobinLoop_all_full {healthy : List Server} {c m : ℚ}
    (h : ∀ s ∈ healthy, can_accept_request s c m = false) :
    ∀ (fuel idx : ℕ), (roundRobinLoop healthy c m idx fuel).1 = none ∧
      (roundRobinLoop healthy c m idx fuel).2.1 = "round_robin_all_full" := by
  intro fuel
  induction fuel with
  | zero => intro idx; exact ⟨rfl, rfl⟩
  | succ k ih =>
    intro idx
    unfold roundRobinLoop
    cases hget : healthy[idx % healthy.length]? with
    | none => exact ⟨rfl, rfl⟩
    | some srv =>
      obtain ⟨hlt, hg⟩ := List.getElem?_eq_some.mp hget
      have hmem : srv ∈ healthy := hg ▸ List.getElem_mem hlt
      simp only [h srv hmem, Bool.false_eq_true, if_false]
      exact ih _

lemma assign_server_eval (lb : LoadBalancer) (c m : ℚ) (o : AssignOracle) :
    (assign_server lb c m o).1 = (policyPair lb c m o).1 ∧
    lastDecision (assign_server lb c m o).2 =
      some { method := (policyPair lb c m o).2,
             server_id := (policyPair lb c m o).1.map Server.name,
             success := (policyPair lb c m o).1.isSome } ∧
    (assign_server lb c m o).2.dropped_requests =
      (if (policyPair lb c m o).1.isSome then lb.dropped_requests
       else lb.dropped_requests + 1) := by
  cases halg : lb.algorithm
  case round_robin =>
    simp only [assign_server, policyPair, halg]
    cases hres : (round_robin_assignment lb.servers c m lb.round_robin_index).1 <;>
      simp [lastDecision, pushDecision_getLast, hres]
  case least_connections =>
    simp only [assign_server, policyPair, halg]
    cases hres : (least_connections_assignment lb.servers c m).1 <;>
      simp [lastDecision, pushDecision_getLast, hres]
  case weighted_round_robin =>
    simp only [assign_server, policyPair, halg]
    cases hres :
        (weighted_round_robin_assignment lb.servers c m lb.weighted_round_robin_current).1 <;>
      simp [lastDecision, pushDecision_getLast, hres]
  case least_response_time =>
    simp only [assign_server, policyPair, halg]
    cases hres : (least_response_time_assignment lb.servers c m).1 <;>
      simp [lastDecision, pushDecision_getLast, hres]
  case resource_based =>
    simp only [assign_server, policyPair, halg]
    cases hres : (resource_based_assignment lb.servers c m).1 <;>
      simp [lastDecision, pushDecision_getLast, hres]
  case random =>
    simp only [assign_server, policyPair, halg]
    cases hres : (random_assignment lb.servers c m o.pick).1 <;>
      simp [lastDecision, pushDecision_getLast, hres]
  case power_of_two =>
    simp only [assign_server, policyPair, halg]
    cases hres : (power_of_two_assignment lb.servers c m o.s1 o.s2).1 <;>
      simp [lastDecision, pushDecision_getLast, hres]

lemma weighted_filter_nil {servers : List Server} {c m : ℚ}
    (h : ∀ s ∈ servers, is_overloaded s = true ∨ can_accept_request s c m = false) :
    (rebuild_weighted_list servers).filter
      (fun s => !is_overloaded s && can_accept_request s c m) = [] := by
  rw [List.filter_eq_nil_iff]
  intro s hs
  rcases h s (mem_rebuild_weighted_list hs) with hov | hacc
  · simp [hov]
  · simp [hacc]

lemma round_robin_none {servers : List Server} {c m : ℚ} (idx : ℕ)
    (h : ∀ s ∈ servers, is_overloaded s = true ∨ can_accept_request s c m = false) :
    (round_robin_assignment servers c m idx).1 = none ∧
    (round_robin_assignment servers c m idx).2.1 ∈ failureCodes := by
  simp only [round_robin_assignment]
  split
  · exact ⟨rfl, by simp [failureCodes]⟩
  · have hall : ∀ s ∈ get_healthy_servers servers, can_accept_request s c m = false := by
      intro s hs
      rcases List.mem_filter.mp hs with ⟨hmem, hover⟩
      rcases h s hmem with hov | hacc
      · simp [hov] at hover
      · exact hacc
    obtain ⟨h1, h2⟩ := roundRobinLoop_all_full hall (get_healthy_servers servers).length idx
    exact ⟨h1, by rw [h2]; simp [failureCodes]⟩

lemma roundRobinLoop_code {healthy : List Server} {c m : ℚ} :
    ∀ (fuel idx : ℕ),
      (roundRobinLoop healthy c m idx fuel).1 = none ∨
      (roundRobinLoop healthy c m idx fuel).2.1 = "round_robin_success" := by
  intro fuel
  induction fuel with
  | zero => intro idx; exact Or.inl rfl
  | succ k ih =>
    intro idx
    unfold roundRobinLoop
    cases hget : healthy[idx % healthy.length]? with
    | none => exact Or.inl rfl
    | some s =>
      by_cases hacc : can_accept_request s c m = true
      · simp [hacc]
      · simp only [Bool.not_eq_true] at hacc
        simp only [hacc, Bool.false_eq_true, if_false]
        exact ih _

lemma policyPair_code (lb : LoadBalancer) (c m : ℚ) (o : AssignOracle) :
    (policyPair lb c m o).1 = none ∨ (policyPair lb c m o).2 ∈ successCodes := by
  cases halg : lb.algorithm
  case round_robin =>
    simp only [policyPair, halg]
    simp only [round_robin_assignment]
    split
    · exact Or.inl rfl
    · rcases roundRobinLoop_code (get_healthy_servers lb.servers).length
        lb.round_robin_index with h | h
      · exact Or.inl h
      · exact Or.inr (by rw [h]; simp [successCodes])
  case least_connections =>
    simp only [policyPair, halg, least_connections_assignment]
    split
    · exact Or.inl rfl
    · exact Or.inr (by simp [successCodes])
  case weighted_round_robin =>
    simp only [policyPair, halg, weighted_round_robin_assignment]
    split
    · exact Or.inl rfl
    · exact Or.inr (by simp [successCodes])
  case least_response_time =>
    simp only [policyPair, halg, least_response_time_assignment]
    split
    · exact Or.inl rfl
    · exact Or.inr (by simp [successCodes])
  case resource_based =>
    simp only [policyPair, halg, resource_based_assignment]
    split
    · exact Or.inl rfl
    · exact Or.inr (by simp [successCodes])
  case random =>
    simp only [policyPair, halg, random_assignment]
    split
    · exact Or.inl rfl
    · exact Or.inr (by simp [successCodes])
  case power_of_two =>
    simp only [policyPair, halg, power_of_two_assignment]
    split
    · exact Or.inl rfl
    · split
      · exact Or.inr (by simp [successCodes])
      · split
        · exact Or.inr (by simp [successCodes])
        · exact Or.inr (by simp [successCodes])

lemma policyPair_none_of_empty (lb : LoadBalancer) (c m : ℚ) (o : AssignOracle)
    (hempty : ∀ s ∈ lb.servers,
      is_overloaded s = true ∨ can_accept_request s c m = false) :
    (policyPair lb c m o).1 = none ∧ (policyPair lb c m o).2 ∈ failureCodes := by
  have hnil := @admissible_filter_nil lb.servers c m hempty
  have hwnil := @weighted_filter_nil lb.servers c m hempty
  cases halg : lb.algorithm
  case round_robin =>
    simp only [policyPair, halg]
    exact round_robin_none lb.round_robin_index hempty
  case least_connections =>
    simp only [policyPair, halg, least_connections_assignment, hnil]
    simp [failureCodes]
  case weighted_round_robin =>
    simp only [policyPair, halg, weighted_round_robin_assignment, hwnil]
    simp [failureCodes]
  case least_response_time =>
    simp only [policyPair, halg, least_response_time_assignment, hnil]
    simp [failureCodes]
  case resource_based =>
    simp only [policyPair, halg, resource_based_assignment, hnil]
    simp [failureCodes]
  case random =>
    simp only [policyPair, halg, random_assignment, hnil]
    simp [failureCodes]
  case power_of_two =>
    simp only [policyPair, halg, power_of_two_assignment, hnil]
    simp [failureCodes]

/-- C7: whenever no backend is both non-overloaded and able to accept the
request, `assign_server` returns `none` for every policy, counts a drop,
and records a routing decision whose reason code belongs to the failure
code set; successful assignments always record a reason code from the
success code set, and the two sets are disjoint — so the recorded reason
code distinguishes the empty-admissible-set outcome. -/
theorem assign_none_reason (lb : LoadBalancer) (c m : ℚ) (o : AssignOracle)
    (hempty : ∀ s ∈ lb.servers,
      is_overloaded s = true ∨ can_accept_request s c m = false) :
    (assign_server lb c m o).1 = none ∧
    (assign_server lb c m o).2.dropped_requests = lb.dropped_requests + 1 ∧
    (∃ d, lastDecision (assign_server lb c m o).2 = some d ∧
      d.success = false ∧ d.method ∈ failureCodes) ∧
    (∀ (lb' : LoadBalancer) (c' m' : ℚ) (o' : AssignOracle) (srv : Server),
      (assign_server lb' c' m' o').1 = some srv →
      ∃ d, lastDecision (assign_server lb' c' m' o').2 = some d ∧
        d.success = true ∧ d.method ∈ successCodes) ∧
    (∀ f ∈ failureCodes, f ∉ successCodes) := by
  obtain ⟨he1, he2, he3⟩ := assign_server_eval lb c m o
  obtain ⟨hn, hcode⟩ := policyPair_none_of_empty lb c m o hempty
  refine ⟨he1.trans hn, ?_, ?_, ?_, ?_⟩
  · rw [he3, hn]
    simp
  · exact ⟨_, he2, by simp [hn], by simpa [hn] using hcode⟩
  · intro lb' c' m' o' srv hsome
    obtain ⟨ha1, ha2, _⟩ := assign_server_eval lb' c' m' o'
    have hps : (policyPair lb' c' m' o').1 = some srv := ha1 ▸ hsome
    rcases policyPair_code lb' c' m' o' with h | h
    · rw [h] at hps; cases hps
    · exact ⟨_, ha2, by simp [hps], h⟩
  · intro f hf hs
    fin_cases hf <;> simp_all [successCodes]

/-- Witness for C7: a pool holding a single overloaded server admits nobody,
and `assign_server` (here under LeastConnections) returns `none` and counts
the drop. -/
theorem assign_none_reason_witness :
    (assign_server
      (mkLoadBalancer LoadBalancingAlgorithm.least_connections
        [{ server0 with status := ServerStatus.overloaded }])
      1 1 { pick := 0, s1 := server0, s2 := server0 }).1 = none ∧
    (assign_server
      (mkLoadBalancer LoadBalancingAlgorithm.least_connections
        [{ server0 with status := ServerStatus.overloaded }])
      1 1 { pick := 0, s1 := server0, s2 := server0 }).2.dropped_requests =
      (mkLoadBalancer LoadBalancingAlgorithm.least_connections
        [{ server0 with status := ServerStatus.overloaded }]).dropped_requests + 1 := by
  have hempty : ∀ s ∈ [{ server0 with status := ServerStatus.overloaded }],
      is_overloaded s = true ∨ can_accept_request s 1 1 = false := by
    intro s hs
    rcases List.mem_singleton.mp hs with rfl
    left
    simp [is_overloaded]
  have h := assign_none_reason
    (mkLoadBalancer LoadBalancingAlgorithm.least_connections
      [{ server0 with status := ServerStatus.overloaded }])
    1 1 { pick := 0, s1 := server0, s2 := server0 } hempty
  exact ⟨h.1, h.2.1⟩

/-- C9: under PowerOfTwoChoices, with a single admissible backend that
backend is returned directly; with at least two admissible backends and a
sampled admissible pair, the chosen backend never carries strictly more
in-flight connections than the other sampled candidate, and the first
sampled backend wins exact ties. -/
theorem power_of_two_spec (servers : List Server) (c m : ℚ) (s1 s2 : Server)
    (hs1 : s1 ∈ (get_healthy_servers servers).filter (fun s => can_accept_request s c m))
    (hs2 : s2 ∈ (get_healthy_servers servers).filter (fun s => can_accept_request s c m)) :
    (((get_healthy_servers servers).filter (fun s => can_accept_request s c m)).length = 1 →
      (power_of_two_assignment servers c m s1 s2).1 =
        ((get_healthy_servers servers).filter (fun s => can_accept_request s c m))[0]?) ∧
    (2 ≤ ((get_healthy_servers servers).filter (fun s => can_accept_request s c m)).length →
      (∀ chosen, (power_of_two_assignment servers c m s1 s2).1 = some chosen →
        (chosen = s1 ∧ s1.active_connections ≤ s2.active_connections) ∨
        (chosen = s2 ∧ s2.active_connections ≤ s1.active_connections)) ∧
      (s1.active_connections = s2.active_connections →
        (power_of_two_assignment servers c m s1 s2).1 = some s1)) := by
  constructor
  · intro h1
    have hne : ((get_healthy_servers servers).filter
        (fun s => can_accept_request s c m)).isEmpty = false := by
      rw [List.isEmpty_eq_false]
      intro hnil
      rw [hnil] at h1
      simp at h1
    simp only [power_of_two_assignment, hne, Bool.false_eq_true, if_false, h1, if_true]
  · intro h2
    have hne : ((get_healthy_servers servers).filter
        (fun s => can_accept_request s c m)).isEmpty = false := by
      rw [List.isEmpty_eq_false]
      intro hnil
      rw [hnil] at h2
      simp at h2
    have hlen : ((get_healthy_servers servers).filter
        (fun s => can_accept_request s c m)).length ≠ 1 := by omega
    simp only [power_of_two_assignment, hne, Bool.false_eq_true, if_false, hlen]
    by_cases hle : s1.active_connections ≤ s2.active_connections
    · rw [if_pos hle]
      refine ⟨fun chosen hch => ?_, fun _ => rfl⟩
      exact Or.inl ⟨(Option.some_inj.mp hch).symm, hle⟩
    · rw [if_neg hle]
      refine ⟨fun chosen hch => ?_, fun heq => absurd (le_of_eq heq) hle⟩
      exact Or.inr ⟨(Option.some_inj.mp hch).symm, le_of_lt (Nat.lt_of_not_le hle)⟩

/-- Witness for C9: two admissible servers tied on in-flight connections;
the first sampled server wins the tie. -/
theorem power_of_two_spec_witness :
    (power_of_two_assignment [server0, { server0 with name := "Server-2" }] 1 1
      server0 { server0 with name := "Server-2" }).1 = some server0 := by
  have hca1 : can_accept_request server0 1 1 = true :=
    (can_accept_request_eq_true_iff _ _ _).mpr
      ⟨Or.inl rfl, by norm_num [server0], by norm_num [server0]⟩
  have hca2 : can_accept_request { server0 with name := "Server-2" } 1 1 = true :=
    (can_accept_request_eq_true_iff _ _ _).mpr
      ⟨Or.inl rfl, by norm_num [server0], by norm_num [server0]⟩
  have hov1 : is_overloaded server0 = false := rfl
  have hov2 : is_overloaded { server0 with name := "Server-2" } = false := rfl
  have hfilter : (get_healthy_servers [server0, { server0 with name := "Server-2" }]).filter
      (fun s => can_accept_request s 1 1) =
      [server0, { server0 with name := "Server-2" }] := by
    simp [get_healthy_servers, hca1, hca2, hov1, hov2]
  have hmem1 : server0 ∈
      (get_healthy_servers [server0, { server0 with name := "Server-2" }]).filter
        (fun s => can_accept_request s 1 1) := by
    rw [hfilter]; simp
  have hmem2 : ({ server0 with name := "Server-2" } : Server) ∈
      (get_healthy_servers [server0, { server0 with name := "Server-2" }]).filter
        (fun s => can_accept_request s 1 1) := by
    rw [hfilter]; simp
  have hlen : 2 ≤
      ((get_healthy_servers [server0, { server0 with name := "Server-2" }]).filter
        (fun s => can_accept_request s 1 1)).length := by
    rw [hfilter]; simp
  exact ((power_of_two_spec [server0, { server0 with name := "Server-2" }] 1 1
    server0 { server0 with name := "Server-2" } hmem1 hmem2).2 hlen).2 rfl

/-- C3 (code bug): the driver pass never grows the live set — the spawned
clone list returned by `User.update` is consumed only for its truthiness —
so an attack clone created during a tick is not a member of the live set
afterwards.  Concretely, `user3` spawns `clone3`, yet the pass over the
singleton live set `[user3]` returns the live set `[user3]`, and `clone3`
is in neither the live set nor the completed batch. -/
theorem attack_clones_dropped :
    (∀ (envAt : ℕ → Env) (us : List User),
      (vizUpdateUsers envAt us).1.length + (vizUpdateUsers envAt us).2.length =
        us.length) ∧
    (userUpdate env3 user3).2 = UpdateResult.spawned [clone3] ∧
    vizUpdateUsers (fun _ => env3) [user3] = ([user3], []) ∧
    clone3 ∉ (vizUpdateUsers (fun _ => env3) [user3]).1 ∧
    clone3 ∉ (vizUpdateUsers (fun _ => env3) [user3]).2 := by
  have hgo : ∀ (envAt : ℕ → Env) (i : ℕ) (us : List User),
      (vizUpdateUsersGo envAt i us).1.length + (vizUpdateUsersGo envAt i us).2.length =
        us.length := by
    intro envAt i us
    induction us generalizing i with
    | nil => rfl
    | cons u rest ih =>
      simp only [vizUpdateUsersGo]
      have := ih (i + 1)
      cases (userUpdate (envAt i) u).2 <;> simp only [List.length_cons] <;> omega
  have hupd : userUpdate env3 user3 = (user3, UpdateResult.spawned [clone3]) := by
    norm_num [userUpdate, execute_attack_behavior, create_attack_clone,
      user3, env3, clone3, user0]
  refine ⟨fun envAt us => hgo envAt 0 us, by rw [hupd], ?_, ?_, ?_⟩
  · simp [vizUpdateUsers, vizUpdateUsersGo, hupd]
  · simp only [vizUpdateUsers, vizUpdateUsersGo, hupd]
    intro hmem
    simp only [List.mem_cons, List.not_mem_nil, or_false] at hmem
    have hid := congrArg User.request_id hmem
    simp [clone3, user3, user0] at hid
  · simp [vizUpdateUsers, vizUpdateUsersGo, hupd]

/-- C4 counterexample: for the standard user `user0` in the AtRouter state
with `assign` returning none (and ample remaining patience), the tick
neither increments the retry counter nor moves the request to Retry or
TimeoutExit — the request simply keeps waiting at the router, contradicting
the claim that the assign-returned-none case takes the
retry-counter/Retry/TimeoutExit path. -/
theorem at_router_rejection_counterexample :
    user0.state = UState.at_lb ∧ user0.retry_count = 0 ∧ user0.failed = false ∧
    env4.assign = none ∧
    ¬((userUpdate env4 user0).1.retry_count = user0.retry_count + 1 ∧
      ((userUpdate env4 user0).1.state = UState.retry ∨
       (userUpdate env4 user0).1.state = UState.timeout_exit)) ∧
    (userUpdate env4 user0).1.retry_count = user0.retry_count ∧
    (userUpdate env4 user0).1.state = UState.at_lb := by
  have hupd : (userUpdate env4 user0).1 =
      { user0 with waiting_time := 1/60 } := by
    have hne : ¬(UserType.standard = UserType.naughty) := by decide
    norm_num [userUpdate, stateStep, env4, env3, user0, hne]
  refine ⟨rfl, rfl, rfl, rfl, ?_, ?_, ?_⟩
  · rw [hupd]
    intro h
    exact absurd h.1 (by norm_num [user0])
  · rw [hupd]
  · rw [hupd]
    rfl

/-- C4 amended: in the AtRouter state of a not-yet-failed request, when
assign succeeds but admission fails the retry counter is incremented and —
while the incremented counter is below the retry budget and the roll is
under the category retry probability — the request moves to Retry,
otherwise to TimeoutExit marked failed; when assign returns none the retry
counter is untouched and the request keeps waiting at the router,
reaching TimeoutExit only by exhausting its maximum tolerated wait. -/
theorem at_router_rejection_spec (u : User) (e : Env) (srv : Server)
    (hstate : u.state = UState.at_lb) (hfail : u.failed = false) :
    (e.assign = some srv →
      (add_connection srv u.cpu_requirement u.memory_requirement u.processing_time).2
        = false →
      (stateStep e u).1.retry_count = u.retry_count + 1 ∧
      ((u.retry_count + 1 < u.max_retries ∧ e.retryRoll < u.retry_probability) →
        (stateStep e u).1.state = UState.retry ∧
        (stateStep e u).1.waiting_time = 0 ∧
        (stateStep e u).1.failed = false) ∧
      (¬(u.retry_count + 1 < u.max_retries ∧ e.retryRoll < u.retry_probability) →
        (stateStep e u).1.state = UState.timeout_exit ∧
        (stateStep e u).1.failed = true)) ∧
    (e.assign = none →
      (stateStep e u).1.retry_count = u.retry_count ∧
      (u.max_waiting_time ≤ u.waiting_time + 1/60 →
        (stateStep e u).1.state = UState.timeout_exit ∧
        (stateStep e u).1.failed = true) ∧
      (¬(u.max_waiting_time ≤ u.waiting_time + 1/60) →
        (stateStep e u).1.state = UState.at_lb ∧
        (stateStep e u).1.waiting_time = u.waiting_time + 1/60)) := by
  constructor
  · intro hassign hadm
    have hrej : (stateStep e u).1 =
        handle_server_rejection e.retryRoll e.now
          (if u.load_balancer_reached_time = 0
           then { u with load_balancer_reached_time := e.now, target_server := some srv }
           else { u with target_server := some srv }) := by
      by_cases hlb : u.load_balancer_reached_time = 0 <;>
        simp [stateStep, hstate, hassign, hadm, hlb]
    by_cases hlb : u.load_balancer_reached_time = 0 <;>
      rw [hrej] <;> simp only [hlb, if_true, if_false] <;>
      unfold handle_server_rejection <;>
      by_cases hcond : u.retry_count + 1 < u.max_retries ∧ e.retryRoll < u.retry_probability
    · rw [if_pos (by simpa using hcond)]
      exact ⟨rfl, fun _ => ⟨rfl, rfl, hfail⟩, fun h => absurd hcond h⟩
    · rw [if_neg (by simpa using hcond)]
      unfold handle_timeout
      rw [if_neg (by simp [hfail])]
      exact ⟨rfl, fun h => absurd h hcond, fun _ => ⟨rfl, rfl⟩⟩
    · rw [if_pos (by simpa using hcond)]
      exact ⟨rfl, fun _ => ⟨rfl, rfl, hfail⟩, fun h => absurd hcond h⟩
    · rw [if_neg (by simpa using hcond)]
      unfold handle_timeout
      rw [if_neg (by simp [hfail])]
      exact ⟨rfl, fun h => absurd h hcond, fun _ => ⟨rfl, rfl⟩⟩
  · intro hassign
    by_cases hwait : u.max_waiting_time ≤ u.waiting_time + 1/60
    · have hwait' : u.max_waiting_time ≤ u.waiting_time + (60:ℚ)⁻¹ := by
        simpa using hwait
      have hstep : (stateStep e u).1 =
          handle_timeout e.now
            (if u.load_balancer_reached_time = 0
             then { u with load_balancer_reached_time := e.now, target_server := none,
                           waiting_time := u.waiting_time + 1/60 }
             else { u with target_server := none,
                           waiting_time := u.waiting_time + 1/60 }) := by
        by_cases hlb : u.load_balancer_reached_time = 0 <;>
          simp [stateStep, hstate, hassign, hlb, hwait']
      by_cases hlb : u.load_balancer_reached_time = 0
      · rw [hstep, if_pos hlb]
        unfold handle_timeout
        rw [if_neg (by simp [hfail])]
        exact ⟨rfl, fun _ => ⟨rfl, rfl⟩, fun h => absurd hwait h⟩
      · rw [hstep, if_neg hlb]
        unfold handle_timeout
        rw [if_neg (by simp [hfail])]
        exact ⟨rfl, fun _ => ⟨rfl, rfl⟩, fun h => absurd hwait h⟩
    · have hwait' : ¬(u.max_waiting_time ≤ u.waiting_time + (60:ℚ)⁻¹) := by
        simpa using hwait
      have hstep : (stateStep e u).1 =
          (if u.load_balancer_reached_time = 0
           then { u with load_balancer_reached_time := e.now, target_server := none,
                         waiting_time := u.waiting_time + 1/60 }
           else { u with target_server := none,
                         waiting_time := u.waiting_time + 1/60 }) := by
        by_cases hlb : u.load_balancer_reached_time = 0 <;>
          simp [stateStep, hstate, hassign, hlb, hwait']
      by_cases hlb : u.load_balancer_reached_time = 0
      · rw [hstep, if_pos hlb]
        exact ⟨rfl, fun h => absurd h hwait, fun _ => ⟨hstate, rfl⟩⟩
      · rw [hstep, if_neg hlb]
        exact ⟨rfl, fun h => absurd h hwait, fun _ => ⟨hstate, rfl⟩⟩

/-- Witness for C4 at a concrete rejection: a full backend rejects the
admission, the roll favors a retry, and the request moves to Retry with its
counter incremented. -/
theorem at_router_rejection_spec_witness :
    (stateStep
      { env3 with assign := some { server0 with status := ServerStatus.failed },
                  retryRoll := 0 }
      { user0 with max_retries := 3, retry_probability := 1, retry_count := 0 }).1.state
      = UState.retry := by
  have hd1 : ¬(ServerStatus.failed = ServerStatus.healthy) := by decide
  have hd2 : ¬(ServerStatus.failed = ServerStatus.degraded) := by decide
  have h := (at_router_rejection_spec
    { user0 with max_retries := 3, retry_probability := 1, retry_count := 0 }
    { env3 with assign := some { server0 with status := ServerStatus.failed },
                retryRoll := 0 }
    { server0 with status := ServerStatus.failed } rfl rfl).1 rfl
    (by norm_num [add_connection, can_accept_request, server0, user0, hd1, hd2])
  exact (h.2.1 (by constructor <;> norm_num [user0, env3])).1

lemma hsr_retry_eq (roll now : ℚ) (v : User)
    (h : v.retry_count + 1 < v.max_retries ∧ roll < v.retry_probability) :
    handle_server_rejection roll now v =
      { v with retry_count := v.retry_count + 1, state := UState.retry,
               waiting_time := 0 } := by
  unfold handle_server_rejection
  rw [if_pos (by simpa using h)]

lemma hsr_timeout_eq (roll now : ℚ) (v : User)
    (h : ¬(v.retry_count + 1 < v.max_retries ∧ roll < v.retry_probability))
    (hfail : v.failed = false) :
    handle_server_rejection roll now v =
      { v with retry_count := v.retry_count + 1, failed := true, timeout_exit := true,
               state := UState.timeout_exit, completion_time := now } := by
  unfold handle_server_rejection handle_timeout
  rw [if_neg (by simpa using h), if_neg (by simp [hfail])]

lemma rejectionRun_frozen (now : ℚ) :
    ∀ (rolls : List ℚ) (w : User),
      w.state ≠ UState.at_lb → w.state ≠ UState.retry →
      rejectionRun now rolls w = w := by
  intro rolls
  induction rolls with
  | nil => intro w _ _; rfl
  | cons roll rest ih =>
    intro w h1 h2
    simp only [rejectionRun, List.foldl_cons]
    rw [show rejectionStep now roll w = w by
      unfold rejectionStep
      rw [if_neg (by simp [h1, h2])]]
    exact ih w h1 h2

lemma rejectionRun_loop (now : ℚ) :
    ∀ (rolls : List ℚ) (v : User),
      (v.state = UState.at_lb ∨ v.state = UState.retry) → v.failed = false →
      (∀ r ∈ rolls, r < v.retry_probability) →
      v.retry_count + rolls.length < v.max_retries →
      ((rejectionRun now rolls v).state = UState.at_lb ∨
        (rejectionRun now rolls v).state = UState.retry) ∧
      (rejectionRun now rolls v).retry_count = v.retry_count + rolls.length ∧
      (rejectionRun now rolls v).failed = false := by
  intro rolls
  induction rolls with
  | nil =>
    intro v hloop hfail _ _
    exact ⟨hloop, by simp [rejectionRun], hfail⟩
  | cons roll rest ih =>
    intro v hloop hfail hfav hlt
    rw [show rejectionRun now (roll :: rest) v =
        rejectionRun now rest (rejectionStep now roll v) from rfl]
    rw [show rejectionStep now roll v = handle_server_rejection roll now v by
      unfold rejectionStep; rw [if_pos hloop]]
    have hc1 : v.retry_count + 1 < v.max_retries := by
      simp only [List.length_cons] at hlt; omega
    rw [hsr_retry_eq roll now v ⟨hc1, hfav roll (List.mem_cons_self _ _)⟩]
    have hres := ih
      { v with
        retry_count := v.retry_count + 1, state := UState.retry,
        waiting_time := 0 }
      (Or.inr rfl) hfail (fun r hr => hfav r (List.mem_cons_of_mem _ hr))
      (by
        show v.retry_count + 1 + rest.length < v.max_retries
        simp only [List.length_cons] at hlt
        omega)
    refine ⟨hres.1, ?_, hres.2.2⟩
    rw [hres.2.1]
    show v.retry_count + 1 + rest.length = v.retry_count + (roll :: rest).length
    simp only [List.length_cons]
    omega

lemma rejectionRun_exit (now : ℚ) :
    ∀ (rolls : List ℚ) (v : User),
      (v.state = UState.at_lb ∨ v.state = UState.retry) → v.failed = false →
      v.retry_count < v.max_retries →
      v.max_retries ≤ v.retry_count + rolls.length →
      (rejectionRun now rolls v).state = UState.timeout_exit ∧
      (rejectionRun now rolls v).failed = true := by
  intro rolls
  induction rolls with
  | nil =>
    intro v _ _ hlt hle
    simp only [List.length_nil, Nat.add_zero] at hle
    omega
  | cons roll rest ih =>
    intro v hloop hfail hlt hle
    rw [show rejectionRun now (roll :: rest) v =
        rejectionRun now rest (rejectionStep now roll v) from rfl]
    rw [show rejectionStep now roll v = handle_server_rejection roll now v by
      unfold rejectionStep; rw [if_pos hloop]]
    by_cases hcond : v.retry_count + 1 < v.max_retries ∧ roll < v.retry_probability
    · rw [hsr_retry_eq roll now v hcond]
      refine ih _ (Or.inr rfl) hfail ?_ ?_
      · show v.retry_count + 1 < v.max_retries
        exact hcond.1
      · show v.max_retries ≤ v.retry_count + 1 + rest.length
        simp only [List.length_cons] at hle
        omega
    · rw [hsr_timeout_eq roll now v hcond hfail]
      rw [rejectionRun_frozen now rest _ (by simp) (by simp)]
      exact ⟨rfl, rfl⟩

lemma rejectionRun_exact (now : ℚ) :
    ∀ (rolls : List ℚ) (v : User),
      (v.state = UState.at_lb ∨ v.state = UState.retry) → v.failed = false →
      (∀ r ∈ rolls, r < v.retry_probability) →
      v.retry_count < v.max_retries →
      v.retry_count + rolls.length = v.max_retries →
      (rejectionRun now rolls v).state = UState.timeout_exit ∧
      (rejectionRun now rolls v).failed = true ∧
      (rejectionRun now rolls v).retry_count = v.max_retries := by
  intro rolls
  induction rolls with
  | nil =>
    intro v _ _ _ hlt heq
    simp only [List.length_nil, Nat.add_zero] at heq
    omega
  | cons roll rest ih =>
    intro v hloop hfail hfav hlt heq
    rw [show rejectionRun now (roll :: rest) v =
        rejectionRun now rest (rejectionStep now roll v) from rfl]
    rw [show rejectionStep now roll v = handle_server_rejection roll now v by
      unfold rejectionStep; rw [if_pos hloop]]
    by_cases h1 : v.retry_count + 1 < v.max_retries
    · rw [hsr_retry_eq roll now v ⟨h1, hfav roll (List.mem_cons_self _ _)⟩]
      have hres := ih
        { v with
          retry_count := v.retry_count + 1, state := UState.retry,
          waiting_time := 0 }
        (Or.inr rfl) hfail (fun r hr => hfav r (List.mem_cons_of_mem _ hr))
        (by
          show v.retry_count + 1 < v.max_retries
          exact h1)
        (by
          show v.retry_count + 1 + rest.length = v.max_retries
          simp only [List.length_cons] at heq
          omega)
      exact ⟨hres.1, hres.2.1, hres.2.2⟩
    · have hrest : rest = [] := by
        have : rest.length = 0 := by
          simp only [List.length_cons] at heq
          omega
        exact List.length_eq_zero.mp this
      have hmax : v.retry_count + 1 = v.max_retries := by
        simp only [List.length_cons] at heq
        omega
      rw [hsr_timeout_eq roll now v (fun hc => absurd hc.1 h1) hfail, hrest]
      exact ⟨rfl, rfl, by
        show v.retry_count + 1 = v.max_retries
        exact hmax⟩

/-- C5: a request at the router with a clean retry counter and retry budget
R, whose admission fails on every attempt: (i) with every roll favoring a
retry, after exactly R failed attempts it reaches TimeoutExit marked failed
with its counter at R; (ii) with fewer than R favorable attempts it has not
reached TimeoutExit; (iii) for any rolls whatsoever, R failed attempts
suffice to leave the AtRouter/Retry loop in TimeoutExit — it can never loop
indefinitely. -/
theorem retry_budget_exhaustion (u : User) (now : ℚ)
    (hstate : u.state = UState.at_lb) (hfail : u.failed = false)
    (hcount : u.retry_count = 0) (hpos : 1 ≤ u.max_retries) :
    (∀ rolls : List ℚ, (∀ r ∈ rolls, r < u.retry_probability) →
      rolls.length = u.max_retries →
      (rejectionRun now rolls u).state = UState.timeout_exit ∧
      (rejectionRun now rolls u).failed = true ∧
      (rejectionRun now rolls u).retry_count = u.max_retries) ∧
    (∀ rolls : List ℚ, (∀ r ∈ rolls, r < u.retry_probability) →
      rolls.length < u.max_retries →
      (rejectionRun now rolls u).state ≠ UState.timeout_exit ∧
      (rejectionRun now rolls u).failed = false) ∧
    (∀ rolls : List ℚ, u.max_retries ≤ rolls.length →
      (rejectionRun now rolls u).state = UState.timeout_exit ∧
      (rejectionRun now rolls u).failed = true) := by
  refine ⟨?_, ?_, ?_⟩
  · intro rolls hfav hlen
    exact rejectionRun_exact now rolls u (Or.inl hstate) hfail hfav
      (by omega) (by omega)
  · intro rolls hfav hlen
    have h := rejectionRun_loop now rolls u (Or.inl hstate) hfail hfav (by omega)
    refine ⟨?_, h.2.2⟩
    rcases h.1 with hs | hs <;> rw [hs] <;> decide
  · intro rolls hlen
    exact rejectionRun_exit now rolls u (Or.inl hstate) hfail (by omega) (by omega)

/-- Witness for C5: budget 3 with three favorable rolls ends in TimeoutExit. -/
theorem retry_budget_exhaustion_witness :
    (rejectionRun 1 [0, 0, 0]
      { user0 with max_retries := 3, retry_probability := 9/10 }).state =
      UState.timeout_exit := by
  have h := (retry_budget_exhaustion
    { user0 with max_retries := 3, retry_probability := 9/10 } 1 rfl rfl rfl
    (by norm_num [user0])).1 [0, 0, 0]
    (by intro r hr; fin_cases hr <;> norm_num [user0]) (by norm_num [user0])
  exact h.1

/-- C6 counterexample: invoking `record_user_completion` twice for the very
same request increments the per-category count by two — it carries no
identity guard, so double registration is not idempotent and changes the
aggregate count by more than one. -/
theorem record_completion_counterexample :
    statCount (record_user_completion 1 user0
      (record_user_completion 1 user0 monitorInit)) UserType.standard = 2 ∧
    statCount monitorInit UserType.standard = 0 ∧
    ¬(statCount (record_user_completion 1 user0
        (record_user_completion 1 user0 monitorInit)) UserType.standard ≤
      statCount monitorInit UserType.standard + 1) := by
  have h2 : statCount (record_user_completion 1 user0
      (record_user_completion 1 user0 monitorInit)) UserType.standard = 2 := by
    norm_num [statCount, record_user_completion, monitorInit, appendBounded,
      get_response_time, user0, List.find?]
  have h0 : statCount monitorInit UserType.standard = 0 := rfl
  refine ⟨h2, h0, ?_⟩
  rw [h2, h0]
  omega

/-- C6 amended: only the driver's registrations are idempotent per request
identity — a second invocation of the overall or the simulation completion
registration for the same request returns the state of the first invocation
unchanged (with `false`); `record_user_completion` itself is unguarded and
double-counts (see the counterexample). -/
theorem completion_counting_idempotent (u : User) (b : Bool) (st : VizCounts) :
    count_overall_completion u b (count_overall_completion u b st).1 =
      ((count_overall_completion u b st).1, false) ∧
    count_simulation_completion u b (count_simulation_completion u b st).1 =
      ((count_simulation_completion u b st).1, false) := by
  constructor
  · by_cases h : u.unique_id ∉ st.counted_overall_users
    · have h1 : (count_overall_completion u b st).1 =
          { st with
            counted_overall_users := st.counted_overall_users ++ [u.unique_id]
            successful_users :=
              if b then st.successful_users + 1 else st.successful_users
            timeout_users :=
              if b then st.timeout_users else st.timeout_users + 1 } := by
        unfold count_overall_completion
        rw [if_pos h]
      rw [h1]
      unfold count_overall_completion
      rw [if_neg (by simp)]
    · have h1 : (count_overall_completion u b st).1 = st := by
        unfold count_overall_completion
        rw [if_neg h]
      rw [h1]
      unfold count_overall_completion
      rw [if_neg h]
  · by_cases h : u.is_simulation_user = true ∧
        u.simulation_id = some st.simulation_start_time ∧
        u.unique_id ∉ st.counted_simulation_users
    · have h1 : (count_simulation_completion u b st).1 =
          { st with
            counted_simulation_users := st.counted_simulation_users ++ [u.unique_id]
            simulation_success_users :=
              if b then st.simulation_success_users + 1
              else st.simulation_success_users
            simulation_failed_users :=
              if b then st.simulation_failed_users
              else st.simulation_failed_users + 1 } := by
        unfold count_simulation_completion
        rw [if_pos h]
      rw [h1]
      unfold count_simulation_completion
      rw [if_neg (by simp)]
    · have h1 : (count_simulation_completion u b st).1 = st := by
        unfold count_simulation_completion
        rw [if_neg h]
      rw [h1]
      unfold count_simulation_completion
      rw [if_neg h]

/-- Witness for C10 on a server holding one unexpired in-flight record. -/
theorem remove_connection_frame_witness :
    (processTick { server0 with
        processing_requests := [{ cpu_requirement := 1, memory_requirement := 1,
                                  remaining_time := 2 }],
        current_cpu_usage := 1, current_memory_usage := 1 }).current_cpu_usage = 1 := by
  have h := (remove_connection_frame { server0 with
      processing_requests := [{ cpu_requirement := 1, memory_requirement := 1,
                                remaining_time := 2 }],
      current_cpu_usage := 1, current_memory_usage := 1 }).2
    (by norm_num) (by norm_num) (by norm_num)
  exact h.1

end LBSim
